import Mathlib

/-!
Shallow embedding of the path-dependent Monte-Carlo pricing core of the
`pqf-course-colab` notebooks (the `Process` / `OptionState` hierarchy and
the `mc_path_dependent` driver from the "Solutions 3" notebook).

Python floats are modelled by `ℚ`; Python exceptions are modelled by an
explicit `Except PyErr` result; the mutation of `self` is modelled by
returning the updated object.  The one-step transition law `evolve`, the
state-variable reduction `calculate_state_variable` and the barrier
activation predicate `is_payoff_active` are virtual methods in the source;
they are modelled as function-valued fields, so that each concrete class is
one value of the structure type.
-/

/-- The Python exceptions the embedded code can raise. -/
inductive PyErr : Type
  | runtimeError
  | notImplementedError
  | valueError
  | indexError
  | typeError
  | zeroDivisionError
  deriving DecidableEq, Repr

/-- Decidable equality of embedded results, so that concrete runs can be
checked by `decide`. -/
instance {ε α : Type} [DecidableEq ε] [DecidableEq α] :
    DecidableEq (Except ε α) := fun a b =>
  match a, b with
  | .error e, .error f =>
    if h : e = f then .isTrue (by rw [h])
    else .isFalse (by intro hc; cases hc; exact h rfl)
  | .error _, .ok _ => .isFalse (by intro hc; cases hc)
  | .ok _, .error _ => .isFalse (by intro hc; cases hc)
  | .ok x, .ok y =>
    if h : x = y then .isTrue (by rw [h])
    else .isFalse (by intro hc; cases hc; exact h rfl)

/-- `Process.StateData`: the mutable state of a process, `{spot, time}`. -/
structure StateData where
  spot : ℚ
  time : ℚ
  deriving DecidableEq, Repr

/-- The `Process` class: initial value `spot`, the virtual one-step
transition `evolve(spot, dt, norms)` supplied by the concrete subclass,
and the current mutable `state`. -/
structure Process where
  spot : ℚ
  evolve : ℚ → ℚ → ℚ → ℚ
  state : StateData

/-- `Process.reset`: `self.state = self.StateData(self.spot, 0)`. -/
def Process.reset (p : Process) : Process :=
  { p with state := ⟨p.spot, 0⟩ }

/-- `Process.update(time, norms)`: computes `dt = time - self.state.time`,
`st = self.evolve(self.state.spot, dt, norms)`, replaces the state with
`StateData(st, time)` and returns `st`.  The source performs no check on
the sign of `dt` and raises nothing. -/
def Process.update (p : Process) (time norms : ℚ) : ℚ × Process :=
  let dt := time - p.state.time
  let st := p.evolve p.state.spot dt norms
  (st, { p with state := ⟨st, time⟩ })

/-- `OptionState.StateData`: the record `{updates, underlying, state}` of
observed fixing times, the underlying values at those times, and the
derived state variable (Python `None` is `Option.none`). -/
structure OSData where
  updates : List ℚ
  underlying : List ℚ
  state : Option ℚ
  deriving DecidableEq, Repr

/-- The `OptionState` class.  `calculate_state_variable` and
`is_payoff_active` are the virtual methods (reading the record), modelled
as fields; the base-class defaults are `OptionState.base_state_variable`
(raises `NotImplementedError`) and `fun _ => .ok true`. -/
structure OptionState where
  spot : ℚ
  expiry : ℚ
  payoff : ℚ → ℚ
  times : List ℚ
  calculate_state_variable : OSData → Except PyErr ℚ
  is_payoff_active : OSData → Except PyErr Bool
  state_data : OSData

/-- The base-class `OptionState.calculate_state_variable`: raises
`NotImplementedError`. -/
def OptionState.base_state_variable : OSData → Except PyErr ℚ :=
  fun _ => .error .notImplementedError

/-- The base-class `OptionState.is_payoff_active`: returns `True`. -/
def OptionState.base_payoff_active : OSData → Except PyErr Bool :=
  fun _ => .ok true

/-- The `OptionState` constructor with the default `state_data=None`
argument: record `([], [], None)`. -/
def OptionState.mk0 (spot expiry : ℚ) (payoff : ℚ → ℚ) (times : List ℚ)
    (csv : OSData → Except PyErr ℚ) (ipa : OSData → Except PyErr Bool) :
    OptionState :=
  ⟨spot, expiry, payoff, times, csv, ipa, ⟨[], [], none⟩⟩

/-- `OptionState.reset`: `self.state_data = self.StateData([], [], None)`. -/
def OptionState.reset (os : OptionState) : OptionState :=
  { os with state_data := ⟨[], [], none⟩ }

/-- Python `max` over a nonempty list given as head and tail. -/
def pymax (x : ℚ) (xs : List ℚ) : ℚ :=
  xs.foldl max x

/-- Python `min` over a nonempty list given as head and tail. -/
def pymin (x : ℚ) (xs : List ℚ) : ℚ :=
  xs.foldl min x

/-- `OptionState.has_expired`: if `self.state_data.updates` is nonempty,
`self.expiry <= max(self.state_data.updates)`, else `False`. -/
def OptionState.has_expired (os : OptionState) : Bool :=
  match os.state_data.updates with
  | [] => false
  | t :: ts => decide (os.expiry ≤ pymax t ts)

/-- `OptionState.update_state`: `calculate_state_variable()` if expired,
else `None`. -/
def OptionState.update_state (os : OptionState) : Except PyErr (Option ℚ) :=
  if os.has_expired then (os.calculate_state_variable os.state_data).map some
  else .ok none

/-- `OptionState.update(time, underlying)`: if `time` is a required time
and not yet recorded, append `time` and `underlying` to the record and
recompute the derived state via `update_state`; otherwise do nothing. -/
def OptionState.update (os : OptionState) (time underlying : ℚ) :
    Except PyErr OptionState :=
  if time ∈ os.times ∧ time ∉ os.state_data.updates then
    let updates := os.state_data.updates ++ [time]
    let und := os.state_data.underlying ++ [underlying]
    let os1 : OptionState :=
      { os with state_data := ⟨updates, und, os.state_data.state⟩ }
    (os1.update_state).map fun st =>
      { os with state_data := ⟨updates, und, st⟩ }
  else .ok os

/-- `OptionState.calculate_payoff`: raises `RuntimeError` if not expired;
if expired, returns `payoff(state_data.state)` when the payoff is active
and `0` otherwise.  Applying the payoff to a still-`None` state variable is
the Python `TypeError` of `payoff(None)`. -/
def OptionState.calculate_payoff (os : OptionState) : Except PyErr ℚ :=
  if os.has_expired then
    (os.is_payoff_active os.state_data).bind fun active =>
      if active then
        match os.state_data.state with
        | some s => .ok (os.payoff s)
        | none => .error .typeError
      else .ok 0
  else .error .runtimeError

/-- `BarrierState.calculate_state_variable`: `self.state_data.underlying[-1]`
(Python raises `IndexError` on an empty list). -/
def BarrierState.calculate_state_variable : OSData → Except PyErr ℚ :=
  fun sd =>
    match sd.underlying.getLast? with
    | some x => .ok x
    | none => .error .indexError

/-- `BarrierState.is_payoff_active` (the intermediate base class): raises
`NotImplementedError`. -/
def BarrierState.base_payoff_active : OSData → Except PyErr Bool :=
  fun _ => .error .notImplementedError

/-- `UpAndOut.is_payoff_active`: `max(self.state_data.underlying) < self.barrier`
(Python `max` raises `ValueError` on an empty list). -/
def UpAndOut.is_payoff_active (barrier : ℚ) : OSData → Except PyErr Bool :=
  fun sd =>
    match sd.underlying with
    | [] => .error .valueError
    | x :: xs => .ok (decide (pymax x xs < barrier))

/-- `DownAndOut.is_payoff_active`: `min(self.state_data.underlying) > self.barrier`. -/
def DownAndOut.is_payoff_active (barrier : ℚ) : OSData → Except PyErr Bool :=
  fun sd =>
    match sd.underlying with
    | [] => .error .valueError
    | x :: xs => .ok (decide (pymin x xs > barrier))

/-- `UpAndIn.is_payoff_active`: `max(self.state_data.underlying) > self.barrier`. -/
def UpAndIn.is_payoff_active (barrier : ℚ) : OSData → Except PyErr Bool :=
  fun sd =>
    match sd.underlying with
    | [] => .error .valueError
    | x :: xs => .ok (decide (pymax x xs > barrier))

/-- `DownAndIn.is_payoff_active`: `min(self.state_data.underlying) < self.barrier`. -/
def DownAndIn.is_payoff_active (barrier : ℚ) : OSData → Except PyErr Bool :=
  fun sd =>
    match sd.underlying with
    | [] => .error .valueError
    | x :: xs => .ok (decide (pymin x xs < barrier))

/-- Constructor for `UpAndOut(barrier, spot, expiry, payoff, times)`. -/
def UpAndOut.mk0 (barrier spot expiry : ℚ) (payoff : ℚ → ℚ) (times : List ℚ) :
    OptionState :=
  OptionState.mk0 spot expiry payoff times BarrierState.calculate_state_variable
    (UpAndOut.is_payoff_active barrier)

/-- Constructor for `DownAndOut(barrier, spot, expiry, payoff, times)`. -/
def DownAndOut.mk0 (barrier spot expiry : ℚ) (payoff : ℚ → ℚ) (times : List ℚ) :
    OptionState :=
  OptionState.mk0 spot expiry payoff times BarrierState.calculate_state_variable
    (DownAndOut.is_payoff_active barrier)

/-- Constructor for `UpAndIn(barrier, spot, expiry, payoff, times)`. -/
def UpAndIn.mk0 (barrier spot expiry : ℚ) (payoff : ℚ → ℚ) (times : List ℚ) :
    OptionState :=
  OptionState.mk0 spot expiry payoff times BarrierState.calculate_state_variable
    (UpAndIn.is_payoff_active barrier)

/-- Constructor for `DownAndIn(barrier, spot, expiry, payoff, times)`. -/
def DownAndIn.mk0 (barrier spot expiry : ℚ) (payoff : ℚ → ℚ) (times : List ℚ) :
    OptionState :=
  OptionState.mk0 spot expiry payoff times BarrierState.calculate_state_variable
    (DownAndIn.is_payoff_active barrier)

/-- The inner loop of `mc_path_dependent.do_one_path`: for each `t` in
`ts`, draw `draws k` as the standard normal, `St = process.update(t, draw)`,
then `option_state.update(t, St)`; `k` counts the draws consumed so far. -/
def pathLoop (draws : ℕ → ℚ) :
    List ℚ → Process → OptionState → ℕ → Except PyErr (OptionState × Process × ℕ)
  | [], proc, os, k => .ok (os, proc, k)
  | t :: ts, proc, os, k =>
    let z := draws k
    let r := proc.update t z
    (os.update t r.1).bind fun os1 => pathLoop draws ts r.2 os1 (k + 1)

/-- `do_one_path(times)` of `mc_path_dependent`: walk the times, then
return `option_state.calculate_payoff()` along with the mutated objects
and the next draw index. -/
def do_one_path (draws : ℕ → ℚ) (ts : List ℚ) (proc : Process)
    (os : OptionState) (k : ℕ) : Except PyErr (ℚ × OptionState × Process × ℕ) :=
  (pathLoop draws ts proc os k).bind fun r =>
    (r.1.calculate_payoff).map fun v => (v, r.1, r.2.1, r.2.2)

/-- The path loop of `mc_path_dependent`: `for i in range(n_paths):`
reset process, reset option state, run one path, add its payoff to the
running sum.  Carries the running sum and the draw counter. -/
def mcLoop (draws : ℕ → ℚ) (ts : List ℚ) :
    ℕ → ℚ → OptionState → Process → ℕ → Except PyErr (ℚ × OptionState × Process)
  | 0, s, os, proc, _ => .ok (s, os, proc)
  | n + 1, s, os, proc, k =>
    (do_one_path draws ts proc.reset os.reset k).bind fun r =>
      mcLoop draws ts n (s + r.1) r.2.1 r.2.2.1 r.2.2.2

/-- `mc_path_dependent(option_state, process, yield_curve, n_paths)` with
an explicit deterministic draw source.  `times = option_state.times` is
read once before the loop; Python's `range(n_paths)` is empty for
`n_paths <= 0` (`Int.toNat`); the final `running_sum / n_paths` raises
`ZeroDivisionError` when `n_paths = 0`.  The mutated `option_state` and
`process` are returned alongside the price. -/
def mc_path_dependent (os : OptionState) (proc : Process) (yc : ℚ → ℚ)
    (n_paths : ℤ) (draws : ℕ → ℚ) : Except PyErr (ℚ × OptionState × Process) :=
  let times := os.times
  (mcLoop draws times n_paths.toNat 0 os proc 0).bind fun r =>
    if n_paths = 0 then .error .zeroDivisionError
    else .ok (r.1 / (n_paths : ℚ) * yc r.2.1.expiry, r.2.1, r.2.2)

/-! Spec-side description of the pricer, written from the specification's
words for the refinement claim: each path is an independent run from the
freshly reset objects, path `i` consuming draws `i*L .. i*L+L-1` where `L`
is the number of required times; the price is the sum of the per-path
payoffs divided by the path count, times the discount factor at expiry. -/

/-- Spec-side single step: at time `t` with sample `z`, obtain the fixing
value from `process.update` and feed it to `optionState.update`. -/
def specStep (st : OptionState × Process) (tz : ℚ × ℚ) :
    Except PyErr (OptionState × Process) :=
  let r := st.2.update tz.1 tz.2
  (st.1.update tz.1 r.1).map fun os1 => (os1, r.2)

/-- Spec-side single path: reset both objects, walk the time/sample pairs
in order, then take the payoff. -/
def specPathPayoff (os : OptionState) (proc : Process) (tzs : List (ℚ × ℚ)) :
    Except PyErr ℚ :=
  (tzs.foldlM specStep (os.reset, proc.reset)).bind fun st =>
    st.1.calculate_payoff

/-- The consecutive samples `draws start, ..., draws (start + L - 1)`
consumed by one simulated path. -/
def specPathDraws (draws : ℕ → ℚ) (start L : ℕ) : List ℚ :=
  (List.range L).map fun j => draws (start + j)

/-- Spec-side sum of per-path payoffs over `m` independent paths, the
first consuming samples from index `start`: each path pairs the required
times in order with the next `L = |times|` samples. -/
def specPayoffSum (os : OptionState) (proc : Process) (draws : ℕ → ℚ) :
    ℕ → ℕ → Except PyErr ℚ
  | _, 0 => .ok 0
  | start, m + 1 =>
    (specPathPayoff os proc
        (os.times.zip (specPathDraws draws start os.times.length))).bind
      fun v =>
        (specPayoffSum os proc draws (start + os.times.length) m).map
          fun s => v + s

/-- Spec-side price for `n ≥ 1` paths: the sum of the per-path payoffs of
`n` independent paths (path `i` consuming samples `i*L .. i*L+L-1`),
divided by `n` and multiplied by the discount factor at the option's
expiry. -/
def specPrice (os : OptionState) (proc : Process) (yc : ℚ → ℚ) (n : ℕ)
    (draws : ℕ → ℚ) : Except PyErr ℚ :=
  (specPayoffSum os proc draws 0 n).map fun s => s / (n : ℚ) * yc os.expiry

/-- A process with a concrete (affine) transition law, used to instantiate
the generic `Process` theorems on explicit inputs. -/
def cproc : Process := ⟨100, fun s dt z => s + dt * z, ⟨100, 0⟩⟩

/-- `cproc` after `reset(); update(1, 5)`: its state is `{105, 1}`. -/
def c8p1 : Process := ⟨100, fun s dt z => s + dt * z, ⟨105, 1⟩⟩

/-- An `UpAndOut(120, 100, 3, call(100), [1,2,3])` whose path observed
`[110, 125, 115]`, reaching `125 > 120`: expired and knocked out. -/
def c3osX : OptionState :=
  { UpAndOut.mk0 120 100 3 (fun s => max (s - 100) 0) [1, 2, 3] with
    state_data := ⟨[1, 2, 3], [110, 125, 115], some 115⟩ }

/-- An `UpAndOut(120, 100, 1, id, [1])` whose complete record observed
exactly the barrier value `120`. -/
def c4os : OptionState :=
  { UpAndOut.mk0 120 100 1 (fun s => s) [1] with
    state_data := ⟨[1], [120], some 120⟩ }

/-- A one-observation record with underlying value `110`. -/
def c5sd : OSData := ⟨[1], [110], some 110⟩

/-- A fresh `UpAndOut(1000, 100, 1, id, [1])`. -/
def c6os : OptionState := UpAndOut.mk0 1000 100 1 (fun s => s) [1]

/-- A fresh `UpAndOut(1000, 100, 1, id, [1,2])` whose expiry `1` precedes
its last required fixing time `2`. -/
def c7os : OptionState := UpAndOut.mk0 1000 100 1 (fun s => s) [1, 2]

/-- A fresh `UpAndOut(1000, 100, 2, id, [1,2])` for the pricer witnesses. -/
def w2os : OptionState := UpAndOut.mk0 1000 100 2 (fun s => s) [1, 2]

/-- A process with transition `s + z` for the pricer witnesses. -/
def w2proc : Process := ⟨100, fun s z _ => s + z, ⟨100, 0⟩⟩

/-- A fresh `UpAndOut(1000, 100, 1, id, [1])` for the residual-state witness. -/
def w10os : OptionState := UpAndOut.mk0 1000 100 1 (fun s => s) [1]

/-- A process whose transition returns the draw itself, for the
residual-state witness. -/
def w10proc : Process := ⟨100, fun _ _ z => z, ⟨100, 0⟩⟩

/-- `w10os` after the single path of the residual-state witness. -/
def w10osF : OptionState :=
  { w10os with state_data := ⟨[1], [5], some 5⟩ }

/-- `w10proc` after the single path of the residual-state witness. -/
def w10procF : Process := ⟨100, fun _ _ z => z, ⟨5, 1⟩⟩

/-- The option states reachable from `os₀` by a `reset()` followed by any
sequence of successful `update` and `reset` calls (a freshly constructed
state equals the reset state). -/
inductive Reachable (os₀ : OptionState) : OptionState → Prop
  | start : Reachable os₀ os₀.reset
  | reset (os : OptionState) : Reachable os₀ os → Reachable os₀ os.reset
  | update (os os' : OptionState) (t v : ℚ) : Reachable os₀ os →
      os.update t v = .ok os' → Reachable os₀ os'

lemma Process.update_fst (p : Process) (t z : ℚ) :
    (p.update t z).1 = p.evolve p.state.spot (t - p.state.time) z := rfl

lemma Process.update_snd (p : Process) (t z : ℚ) :
    (p.update t z).2 =
      { p with state := ⟨p.evolve p.state.spot (t - p.state.time) z, t⟩ } := rfl

lemma Process.reset_state (p : Process) : p.reset.state = ⟨p.spot, 0⟩ := rfl

lemma Process.update_reset (p : Process) (t z : ℚ) :
    (p.update t z).2.reset = p.reset := rfl

lemma Process.reset_reset (p : Process) : p.reset.reset = p.reset := rfl

/-- The two possible shapes of a call to `OptionState.update`: a no-op, or
an accepted fixing that appends to the record and recomputes the state
variable. -/
lemma OptionState.update_cases (os : OptionState) (t v : ℚ) :
    ((t ∉ os.times ∨ t ∈ os.state_data.updates) ∧ os.update t v = .ok os) ∨
    (t ∈ os.times ∧ t ∉ os.state_data.updates ∧
      os.update t v = (OptionState.update_state
          { os with state_data := ⟨os.state_data.updates ++ [t],
              os.state_data.underlying ++ [v], os.state_data.state⟩ }).map
        fun st => { os with state_data := ⟨os.state_data.updates ++ [t],
            os.state_data.underlying ++ [v], st⟩ }) := by
  by_cases hc : t ∈ os.times ∧ t ∉ os.state_data.updates
  · exact Or.inr ⟨hc.1, hc.2, by rw [OptionState.update, if_pos hc]⟩
  · refine Or.inl ⟨?_, by rw [OptionState.update, if_neg hc]⟩
    by_cases h1 : t ∈ os.times
    · exact Or.inr (by_contra fun h2 => hc ⟨h1, h2⟩)
    · exact Or.inl h1

/-- A successful `update` preserves every field but the record, hence the
reset state, the required times and the expiry. -/
lemma OptionState.update_static (os os' : OptionState) (t v : ℚ)
    (h : os.update t v = .ok os') :
    os'.reset = os.reset ∧ os'.times = os.times ∧ os'.expiry = os.expiry := by
  rcases OptionState.update_cases os t v with ⟨_, heq⟩ | ⟨_, _, heq⟩
  · rw [h] at heq
    cases heq
    exact ⟨rfl, rfl, rfl⟩
  · rw [heq] at h
    rcases hst : OptionState.update_state
        { os with state_data := ⟨os.state_data.updates ++ [t],
            os.state_data.underlying ++ [v], os.state_data.state⟩ } with e | st
    · rw [hst] at h
      cases h
    · rw [hst] at h
      cases h
      exact ⟨rfl, rfl, rfl⟩

/-- A successful accepted `update` records `t`; a no-op keeps the record. -/
lemma OptionState.update_mem (os os' : OptionState) (t v : ℚ)
    (h : os.update t v = .ok os') :
    os' = os ∨ os'.state_data.updates = os.state_data.updates ++ [t] := by
  rcases OptionState.update_cases os t v with ⟨_, heq⟩ | ⟨_, _, heq⟩
  · rw [h] at heq
    cases heq
    exact Or.inl rfl
  · rw [heq] at h
    rcases hst : OptionState.update_state
        { os with state_data := ⟨os.state_data.updates ++ [t],
            os.state_data.underlying ++ [v], os.state_data.state⟩ } with e | st
    · rw [hst] at h
      cases h
    · rw [hst] at h
      cases h
      exact Or.inr rfl

/-- C1: time-homogeneity of `Process`.  For any process (any concrete
`evolve`, e.g. the Black-Scholes one) and any `t1 > 0`, the value returned
by `reset()` followed by `update(t1, z)` is `evolve(initialValue, t1, z)`;
and a subsequent `update(t2, z2)` with `t2 ≥ t1` returns `evolve` applied
to the value produced at `t1` with increment `t2 - t1` — absolute time
enters only as the elapsed increment. -/
theorem C1_time_homogeneity (p : Process) (t1 t2 z z2 : ℚ)
    (h1 : 0 < t1) (h2 : t1 ≤ t2) :
    (p.reset.update t1 z).1 = p.evolve p.spot t1 z ∧
    ((p.reset.update t1 z).2.update t2 z2).1
      = p.evolve ((p.reset.update t1 z).1) (t2 - t1) z2 := by
  constructor
  · show p.evolve p.spot (t1 - 0) z = p.evolve p.spot t1 z
    rw [sub_zero]
  · rfl

/-- Witness for C1 on an explicit process and explicit times/draws. -/
theorem C1_witness :
    ((0 : ℚ) < 1 ∧ (1 : ℚ) ≤ 2) ∧
    ((cproc.reset.update 1 5).1 = cproc.evolve cproc.spot 1 5 ∧
     ((cproc.reset.update 1 5).2.update 2 7).1
       = cproc.evolve ((cproc.reset.update 1 5).1) (2 - 1) 7) :=
  ⟨⟨by decide, by decide⟩, C1_time_homogeneity cproc 1 2 5 7 (by decide) (by decide)⟩

/-- C8 counterexample: `Process.update` does not reject an out-of-order
time.  On the concrete process `c8p1` (state `{105, 1}`), the call
`update(0, 7)` with `0 < state.time = 1` returns normally: it computes the
negative increment `dt = -1`, returns `evolve(105, -1, 7) = 98`, and
replaces the state with `{98, 0}` — it does not fail. -/
theorem C8_counterexample :
    (0 : ℚ) < c8p1.state.time ∧
    (c8p1.update 0 7).1 = 98 ∧
    (c8p1.update 0 7).2.state = ⟨98, 0⟩ := by
  refine ⟨by decide, by norm_num [c8p1, Process.update], by
    rw [Process.update_snd]
    show StateData.mk (c8p1.evolve 105 (0 - 1) 7) 0 = ⟨98, 0⟩
    norm_num [c8p1]⟩

/-- C8 amended: a call `update(time, z)` with `time` earlier than the
current state time is not rejected; the negative increment
`dt = time - state.time` is passed to `evolve` and the state is replaced
with the evolved value at the earlier `time`. -/
theorem C8_amended_no_rejection (p : Process) (time z : ℚ)
    (h : time < p.state.time) :
    p.update time z
      = (p.evolve p.state.spot (time - p.state.time) z,
         { p with state := ⟨p.evolve p.state.spot (time - p.state.time) z,
             time⟩ }) := rfl

/-- Witness for the amended C8 on the concrete process `c8p1`. -/
theorem C8_amended_witness :
    (0 : ℚ) < c8p1.state.time ∧
    c8p1.update 0 7
      = (c8p1.evolve c8p1.state.spot (0 - c8p1.state.time) 7,
         { c8p1 with state := ⟨c8p1.evolve c8p1.state.spot (0 - c8p1.state.time) 7,
             0⟩ }) :=
  ⟨by decide, C8_amended_no_rejection c8p1 0 7 (by decide)⟩

/-- C3: the `calculatePayoff` contract.  For every option state it fails
with the state error (`RuntimeError`) whenever `hasExpired()` is false —
in particular on a freshly reset state; whenever `hasExpired()` is true
it returns `payoff(derivedStateVariable)` when `isPayoffActive()` returns
`True`, and `0` when `isPayoffActive()` returns `False`. -/
theorem C3_calculate_payoff_contract (os : OptionState) :
    (os.has_expired = false → os.calculate_payoff = .error .runtimeError) ∧
    (os.reset.calculate_payoff = .error .runtimeError) ∧
    (os.has_expired = true →
      (∀ s, os.is_payoff_active os.state_data = .ok true →
        os.state_data.state = some s → os.calculate_payoff = .ok (os.payoff s)) ∧
      (os.is_payoff_active os.state_data = .ok false →
        os.calculate_payoff = .ok 0)) := by
  refine ⟨fun h => ?_, rfl, fun h => ⟨fun s hact hs => ?_, fun hact => ?_⟩⟩
  · rw [OptionState.calculate_payoff, h]
    rfl
  · rw [OptionState.calculate_payoff, h, hact, hs]
    rfl
  · rw [OptionState.calculate_payoff, h, hact]
    rfl

/-- Witness for C3 on the `UpAndOut(120, ...)` state `c3osX` whose observed
values reach `125`: it is expired, its payoff is inactive, and
`calculatePayoff` returns `0`; its reset fails with the state error. -/
theorem C3_witness :
    (c3osX.has_expired = true ∧
     c3osX.is_payoff_active c3osX.state_data = .ok false) ∧
    c3osX.calculate_payoff = .ok 0 ∧
    c3osX.reset.calculate_payoff = .error .runtimeError :=
  ⟨⟨by decide, by decide⟩,
   ((C3_calculate_payoff_contract c3osX).2.2 (by decide)).2 (by decide),
   (C3_calculate_payoff_contract c3osX).2.1⟩

/-- C4 counterexample: an `UpAndOut` with barrier `120` whose record is
complete and whose maximum observed value is exactly `120` has
`isPayoffActive() = False` (the path IS knocked out), contradicting the
claim that touching the barrier exactly leaves the payoff active. -/
theorem C4_counterexample :
    c4os.state_data.updates = c4os.times ∧
    c4os.state_data.underlying = [120] ∧
    pymax 120 [] = (120 : ℚ) ∧
    c4os.is_payoff_active c4os.state_data = .ok false := by
  refine ⟨by decide, by decide, by decide, by decide⟩

/-- C4 amended: for an Up-and-Out barrier state with observed values
`x :: xs`, a maximum observed value exactly equal to the barrier makes the
payoff inactive (the path is knocked out); the strict inequality in the
code means the payoff stays active exactly when the maximum stays strictly
below the barrier. -/
theorem C4_amended_boundary (B x : ℚ) (xs : List ℚ) (sd : OSData)
    (hu : sd.underlying = x :: xs) :
    (pymax x xs = B → UpAndOut.is_payoff_active B sd = .ok false) ∧
    (UpAndOut.is_payoff_active B sd = .ok true ↔ pymax x xs < B) := by
  obtain ⟨u, und, st⟩ := sd
  cases hu
  constructor
  · intro hmax
    simp [UpAndOut.is_payoff_active, hmax]
  · simp [UpAndOut.is_payoff_active]

/-- Witness for the amended C4 on the concrete state `c4os`. -/
theorem C4_amended_witness :
    (c4os.state_data.underlying = 120 :: [] ∧ pymax 120 [] = (120 : ℚ)) ∧
    UpAndOut.is_payoff_active 120 c4os.state_data = .ok false :=
  ⟨⟨by decide, by decide⟩,
   (C4_amended_boundary 120 120 [] c4os.state_data (by decide)).1 (by decide)⟩

/-- C5: the barrier activation table.  With observed values `x :: xs`,
`isPayoffActive()` returns exactly `max < B` for Up-and-Out, `min > B` for
Down-and-Out, `max > B` for Up-and-In and `min < B` for Down-and-In, all
with strict inequalities. -/
theorem C5_barrier_activation_table (B x : ℚ) (xs : List ℚ) (sd : OSData)
    (hu : sd.underlying = x :: xs) :
    UpAndOut.is_payoff_active B sd = .ok (decide (pymax x xs < B)) ∧
    DownAndOut.is_payoff_active B sd = .ok (decide (pymin x xs > B)) ∧
    UpAndIn.is_payoff_active B sd = .ok (decide (pymax x xs > B)) ∧
    DownAndIn.is_payoff_active B sd = .ok (decide (pymin x xs < B)) := by
  obtain ⟨u, und, st⟩ := sd
  cases hu
  exact ⟨rfl, rfl, rfl, rfl⟩

/-- Witness for C5 on the one-observation record `c5sd`. -/
theorem C5_witness :
    (c5sd.underlying = 110 :: []) ∧
    (UpAndOut.is_payoff_active 120 c5sd = .ok (decide (pymax 110 [] < 120)) ∧
     DownAndOut.is_payoff_active 120 c5sd = .ok (decide (pymin 110 [] > 120)) ∧
     UpAndIn.is_payoff_active 120 c5sd = .ok (decide (pymax 110 [] > 120)) ∧
     DownAndIn.is_payoff_active 120 c5sd = .ok (decide (pymin 110 [] < 120))) :=
  ⟨by decide, C5_barrier_activation_table 120 110 [] c5sd (by decide)⟩

/-- C6: `update` is a no-op on rejected times and idempotent on
duplicates.  A call at a time not in `times`, or at a time already
recorded, returns the state unchanged; and after any successful call at
`t`, a second call at `t` (even with a different value) returns the state
unchanged. -/
theorem C6_update_noop_idempotent (os : OptionState) (t v v' : ℚ) :
    ((t ∉ os.times ∨ t ∈ os.state_data.updates) → os.update t v = .ok os) ∧
    (∀ os', os.update t v = .ok os' → os'.update t v' = .ok os') := by
  have hnoop : ∀ (o : OptionState) (w : ℚ),
      (t ∉ o.times ∨ t ∈ o.state_data.updates) → o.update t w = .ok o := by
    intro o w h
    rw [OptionState.update, if_neg]
    rintro ⟨h1, h2⟩
    rcases h with h | h
    exacts [h h1, h2 h]
  refine ⟨hnoop os v, fun os' hup => ?_⟩
  rcases OptionState.update_cases os t v with ⟨hno, heq⟩ | ⟨h1, h2, heq⟩
  · rw [heq] at hup
    cases hup
    exact hnoop os v' hno
  · rw [heq] at hup
    rcases hst : OptionState.update_state
        { os with state_data := ⟨os.state_data.updates ++ [t],
            os.state_data.underlying ++ [v], os.state_data.state⟩ } with e | st
    · rw [hst] at hup
      cases hup
    · rw [hst] at hup
      cases hup
      exact hnoop _ v'
        (Or.inr (List.mem_append_right _ (List.mem_singleton.mpr rfl)))

/-- Witness for C6: on the fresh state `c6os`, an update at the
non-required time `5` is a no-op, and after the accepted update at `1` a
second update at `1` with a different value leaves the state unchanged. -/
theorem C6_witness :
    ((5 : ℚ) ∉ c6os.times ∨ (5 : ℚ) ∈ c6os.state_data.updates) ∧
    c6os.update 5 7 = .ok c6os := by
  have h : (5 : ℚ) ∉ c6os.times ∨ (5 : ℚ) ∈ c6os.state_data.updates := by decide
  exact ⟨h, (C6_update_noop_idempotent c6os 5 7 7).1 h⟩

/-- C9 counterexample: `mc_path_dependent` does not reject a non-positive
path count.  With `n_paths = -1` on concrete inputs, the loop body never
runs and the call returns the value `0 / (-1) * discount = 0` instead of
failing with a configuration error. -/
theorem C9_counterexample :
    mc_path_dependent c6os cproc (fun _ => 1) (-1) (fun _ => 0)
      = .ok (0, c6os, cproc) := by
  rw [mc_path_dependent]
  show (if (-1 : ℤ) = 0 then Except.error PyErr.zeroDivisionError else
      Except.ok ((0 : ℚ) / ((-1 : ℤ) : ℚ) * 1, c6os, cproc)) = _
  rw [if_neg (by decide), zero_div, zero_mul]

/-- C9 amended: there is no configuration check on the path count.
`n_paths = 0` fails, but with the `ZeroDivisionError` of the final
`running_sum / n_paths`; any `n_paths < 0` makes Python's `range` empty,
so the call returns `0 / n_paths * discount = 0` with the arguments
untouched. -/
theorem C9_amended_no_path_count_check (os : OptionState) (proc : Process)
    (yc : ℚ → ℚ) (n : ℤ) (draws : ℕ → ℚ) :
    (n = 0 →
      mc_path_dependent os proc yc n draws = .error .zeroDivisionError) ∧
    (n < 0 → mc_path_dependent os proc yc n draws = .ok (0, os, proc)) := by
  constructor
  · intro h
    subst h
    rfl
  · intro h
    have h0 : n.toNat = 0 := Int.toNat_of_nonpos (le_of_lt h)
    have hne : ¬n = 0 := by omega
    rw [mc_path_dependent, h0]
    show (if n = 0 then _ else
      Except.ok ((0 : ℚ) / (n : ℚ) * yc os.expiry, os, proc)) = _
    rw [if_neg hne, zero_div, zero_mul]

/-- Witness for the amended C9 at `n_paths = 0` and `n_paths = -1`. -/
theorem C9_amended_witness :
    ((0 : ℤ) = 0 ∧
      mc_path_dependent c6os cproc (fun _ => 1) 0 (fun _ => 0)
        = .error .zeroDivisionError) ∧
    ((-1 : ℤ) < 0 ∧
      mc_path_dependent c6os cproc (fun _ => 1) (-1) (fun _ => 0)
        = .ok (0, c6os, cproc)) :=
  ⟨⟨rfl, (C9_amended_no_path_count_check c6os cproc (fun _ => 1) 0
      (fun _ => 0)).1 rfl⟩,
   ⟨by decide, (C9_amended_no_path_count_check c6os cproc (fun _ => 1) (-1)
      (fun _ => 0)).2 (by decide)⟩⟩

/-- C7 counterexample: on `c7os` (required times `[1, 2]`, expiry `1`) a
single `update(1, 100)` sets the derived state variable (the record has
expired, `1 ≥ expiry`) although the required time `2` has not been
observed — so "state set iff all required times observed" fails. -/
theorem C7_counterexample :
    ((c7os.update 1 100).map fun os => os.state_data.state.isSome)
      = .ok true ∧
    ((c7os.update 1 100).map fun os => os.state_data.updates) = .ok [1] ∧
    c7os.times = [1, 2] := by
  exact ⟨by decide, by decide, by decide⟩

/-- C7 amended: for every state reachable by `reset()` and successful
`update()` calls, the derived state variable is set (non-`None`) if and
only if `hasExpired()` holds, i.e. some observed time is `≥ expiry` —
which need not mean that all required times have been observed. -/
theorem C7_amended_state_iff_expired (os₀ os : OptionState)
    (h : Reachable os₀ os) :
    os.state_data.state.isSome = os.has_expired := by
  induction h with
  | start => rfl
  | reset os hr ih => rfl
  | update os os' t v hr heq ih =>
    rcases OptionState.update_cases os t v with ⟨_, hequ⟩ | ⟨h1, h2, hequ⟩
    · rw [hequ] at heq
      cases heq
      exact ih
    · rw [hequ] at heq
      rcases hst : OptionState.update_state
          { os with state_data := ⟨os.state_data.updates ++ [t],
              os.state_data.underlying ++ [v], os.state_data.state⟩ } with e | st
      · rw [hst] at heq
        cases heq
      · rw [hst] at heq
        cases heq
        rw [OptionState.update_state] at hst
        by_cases hexp : OptionState.has_expired
            { os with state_data := ⟨os.state_data.updates ++ [t],
                os.state_data.underlying ++ [v], os.state_data.state⟩ } = true
        · rw [if_pos hexp] at hst
          have hst' : (os.calculate_state_variable
              ⟨os.state_data.updates ++ [t], os.state_data.underlying ++ [v],
                os.state_data.state⟩).map some = Except.ok st := hst
          rcases hX : os.calculate_state_variable
              ⟨os.state_data.updates ++ [t], os.state_data.underlying ++ [v],
                os.state_data.state⟩ with e2 | val
          · rw [hX] at hst'
            cases hst'
          · rw [hX] at hst'
            cases hst'
            exact (show OptionState.has_expired
                { os with state_data := ⟨os.state_data.updates ++ [t],
                    os.state_data.underlying ++ [v], some val⟩ } = true
              from hexp).symm
        · rw [if_neg hexp] at hst
          cases hst
          rw [Bool.not_eq_true] at hexp
          exact (show OptionState.has_expired
              { os with state_data := ⟨os.state_data.updates ++ [t],
                  os.state_data.underlying ++ [v], none⟩ } = false
            from hexp).symm

/-- Witness for the amended C7 at the freshly reset `c7os`. -/
theorem C7_amended_witness :
    c7os.reset.state_data.state.isSome = c7os.reset.has_expired :=
  C7_amended_state_iff_expired c7os c7os.reset Reachable.start

lemma calculate_payoff_ok_expired (os : OptionState) (v : ℚ)
    (h : os.calculate_payoff = .ok v) : os.has_expired = true := by
  by_cases hexp : os.has_expired = true
  · exact hexp
  · rw [OptionState.calculate_payoff, if_neg hexp] at h
    cases h

lemma specPathDraws_succ (draws : ℕ → ℚ) (k L : ℕ) :
    specPathDraws draws k (L + 1) = draws k :: specPathDraws draws (k + 1) L := by
  simp only [specPathDraws, List.range_succ_eq_map, List.map_cons,
    List.map_map, Nat.add_zero, Function.comp]
  exact congrArg (draws k :: ·)
    (List.map_congr_left fun j _ => congrArg draws (by omega))

lemma pathLoop_ok (draws : ℕ → ℚ) :
    ∀ (ts : List ℚ) (proc : Process) (os : OptionState) (k : ℕ)
      (os' : OptionState) (proc' : Process) (k' : ℕ),
      pathLoop draws ts proc os k = .ok (os', proc', k') →
      os'.reset = os.reset ∧ os'.times = os.times ∧ os'.expiry = os.expiry ∧
      proc'.reset = proc.reset ∧ k' = k + ts.length := by
  intro ts
  induction ts with
  | nil =>
    intro proc os k os' proc' k' h
    cases h
    exact ⟨rfl, rfl, rfl, rfl, rfl⟩
  | cons t ts ih =>
    intro proc os k os' proc' k' h
    simp only [pathLoop] at h
    rcases hu : os.update t (proc.update t (draws k)).1 with e | os1
    · rw [hu] at h
      cases h
    · rw [hu] at h
      obtain ⟨h1, h2, h3, h4, h5⟩ :=
        ih (proc.update t (draws k)).2 os1 (k + 1) os' proc' k' h
      obtain ⟨u1, u2, u3⟩ := OptionState.update_static os os1 t _ hu
      exact ⟨h1.trans u1, h2.trans u2, h3.trans u3,
        h4.trans (Process.update_reset proc t (draws k)),
        by rw [h5]; simp [List.length_cons]; omega⟩

lemma do_one_path_ok (draws : ℕ → ℚ) (ts : List ℚ) (proc : Process)
    (os : OptionState) (k : ℕ) (v : ℚ) (os' : OptionState) (proc' : Process)
    (k' : ℕ) (h : do_one_path draws ts proc os k = .ok (v, os', proc', k')) :
    os'.reset = os.reset ∧ os'.times = os.times ∧ os'.expiry = os.expiry ∧
    proc'.reset = proc.reset ∧ k' = k + ts.length ∧
    os'.calculate_payoff = .ok v := by
  rw [do_one_path] at h
  rcases hp : pathLoop draws ts proc os k with e | r
  · rw [hp] at h
    cases h
  · obtain ⟨os1, proc1, k1⟩ := r
    rw [hp] at h
    simp only [Except.bind] at h
    rcases hc : os1.calculate_payoff with e | w
    · rw [hc] at h
      cases h
    · rw [hc] at h
      cases h
      obtain ⟨h1, h2, h3, h4, h5⟩ :=
        pathLoop_ok draws ts proc os k _ _ _ hp
      exact ⟨h1, h2, h3, h4, h5, hc⟩

lemma pathLoop_zip (draws : ℕ → ℚ) :
    ∀ (ts : List ℚ) (k : ℕ) (proc : Process) (os : OptionState),
      (pathLoop draws ts proc os k).map (fun r => (r.1, r.2.1)) =
        (ts.zip (specPathDraws draws k ts.length)).foldlM specStep (os, proc) := by
  intro ts
  induction ts with
  | nil =>
    intro k proc os
    rfl
  | cons t ts ih =>
    intro k proc os
    show ((os.update t (proc.update t (draws k)).1).bind fun os1 =>
        pathLoop draws ts (proc.update t (draws k)).2 os1 (k + 1)).map
          (fun r => (r.1, r.2.1)) = _
    rw [show (t :: ts).length = ts.length + 1 from rfl, specPathDraws_succ,
      List.zip_cons_cons, List.foldlM_cons]
    rcases hu : os.update t (proc.update t (draws k)).1 with e | os1
    · show Except.error e =
        (specStep (os, proc) (t, draws k)).bind fun s =>
          (ts.zip (specPathDraws draws (k + 1) ts.length)).foldlM specStep s
      rw [specStep]
      show Except.error e =
        ((os.update t (proc.update t (draws k)).1).map fun os1 =>
          (os1, (proc.update t (draws k)).2)).bind _
      rw [hu]
      rfl
    · show (pathLoop draws ts (proc.update t (draws k)).2 os1 (k + 1)).map
          (fun r => (r.1, r.2.1)) =
        (specStep (os, proc) (t, draws k)).bind fun s =>
          (ts.zip (specPathDraws draws (k + 1) ts.length)).foldlM specStep s
      rw [specStep]
      show _ = ((os.update t (proc.update t (draws k)).1).map fun os1 =>
          (os1, (proc.update t (draws k)).2)).bind fun s =>
        (ts.zip (specPathDraws draws (k + 1) ts.length)).foldlM specStep s
      rw [hu]
      exact ih (k + 1) (proc.update t (draws k)).2 os1

lemma do_one_path_spec (draws : ℕ → ℚ) (ts : List ℚ) (k : ℕ)
    (proc : Process) (os : OptionState) :
    (do_one_path draws ts proc.reset os.reset k).map (fun r => r.1) =
      specPathPayoff os proc (ts.zip (specPathDraws draws k ts.length)) := by
  rw [do_one_path, specPathPayoff, ← pathLoop_zip]
  rcases hp : pathLoop draws ts proc.reset os.reset k with e | r
  · rfl
  · show ((r.1.calculate_payoff).map fun v => (v, r.1, r.2.1, r.2.2)).map
        (fun r => r.1) = r.1.calculate_payoff
    rcases hc : r.1.calculate_payoff with e | w
    · rfl
    · rfl

lemma mcLoop_ok (draws : ℕ → ℚ) (ts : List ℚ) :
    ∀ (m : ℕ) (s : ℚ) (os : OptionState) (proc : Process) (k : ℕ)
      (r : ℚ × OptionState × Process),
      mcLoop draws ts m s os proc k = .ok r →
      r.2.1.reset = os.reset ∧ r.2.1.expiry = os.expiry ∧
      r.2.2.reset = proc.reset := by
  intro m
  induction m with
  | zero =>
    intro s os proc k r h
    cases h
    exact ⟨rfl, rfl, rfl⟩
  | succ m ih =>
    intro s os proc k r h
    simp only [mcLoop] at h
    rcases hp : do_one_path draws ts proc.reset os.reset k with e | r1
    · rw [hp] at h
      cases h
    · rw [hp] at h
      simp only [Except.bind] at h
      obtain ⟨g1, g2, g3⟩ := ih (s + r1.1) r1.2.1 r1.2.2.1 r1.2.2.2 r h
      obtain ⟨d1, d2, d3, d4, d5, d6⟩ := do_one_path_ok draws ts proc.reset
        os.reset k r1.1 r1.2.1 r1.2.2.1 r1.2.2.2 (by rw [hp])
      exact ⟨g1.trans d1, g2.trans d3, g3.trans d4⟩

lemma mcLoop_spec (draws : ℕ → ℚ) (os₀ : OptionState) (proc₀ : Process) :
    ∀ (m : ℕ) (s : ℚ) (os : OptionState) (proc : Process) (k : ℕ),
      os.reset = os₀.reset → proc.reset = proc₀.reset →
      (mcLoop draws os₀.times m s os proc k).map (fun r => r.1) =
        (specPayoffSum os₀ proc₀ draws k m).map fun w => s + w := by
  intro m
  induction m with
  | zero =>
    intro s os proc k h1 h2
    show Except.ok s = Except.ok (s + 0)
    rw [add_zero]
  | succ m ih =>
    intro s os proc k h1 h2
    simp only [mcLoop, specPayoffSum]
    rw [h1, h2]
    have hd := do_one_path_spec draws os₀.times k proc₀ os₀
    rcases hp : do_one_path draws os₀.times proc₀.reset os₀.reset k with e | r1
    · rw [hp] at hd
      rw [← hd]
      rfl
    · rw [hp] at hd
      rw [← hd]
      obtain ⟨d1, d2, d3, d4, d5, d6⟩ := do_one_path_ok draws os₀.times
        proc₀.reset os₀.reset k r1.1 r1.2.1 r1.2.2.1 r1.2.2.2 (by rw [hp])
      have hih := ih (s + r1.1) r1.2.1 r1.2.2.1 r1.2.2.2
        (d1.trans (rfl : os₀.reset.reset = os₀.reset))
        (d4.trans (rfl : proc₀.reset.reset = proc₀.reset))
      rw [d5] at hih
      show (mcLoop draws os₀.times m (s + r1.1) r1.2.1 r1.2.2.1 r1.2.2.2).map
          (fun r => r.1)
        = ((specPayoffSum os₀ proc₀ draws (k + os₀.times.length) m).map
            fun w => r1.1 + w).map fun w => s + w
      rw [d5, hih]
      rcases hs : specPayoffSum os₀ proc₀ draws (k + os₀.times.length) m
        with e2 | w2
      · rfl
      · show Except.ok (s + r1.1 + w2) = Except.ok (s + (r1.1 + w2))
        rw [add_assoc]

/-- C2: the pricer result.  For `numberOfPaths ≥ 1` and any deterministic
draw source, `mc_path_dependent` computes exactly the specification-side
price: each path is an independent run from the freshly reset process and
option state over the required times in order (one standard-normal sample
per time, `process.update` feeding `optionState.update`), and the result
is the sum of the per-path `calculatePayoff` values divided by the path
count, multiplied by `yieldCurve.discount(optionState.expiry)`. -/
theorem C2_pricer_refinement (os : OptionState) (proc : Process)
    (yc : ℚ → ℚ) (n : ℤ) (draws : ℕ → ℚ) (h : 1 ≤ n) :
    (mc_path_dependent os proc yc n draws).map (fun r => r.1)
      = specPrice os proc yc n.toNat draws := by
  have hne : ¬n = 0 := by omega
  simp only [mc_path_dependent, specPrice]
  have hmain := mcLoop_spec draws os proc n.toNat 0 os proc 0 rfl rfl
  rcases hm : mcLoop draws os.times n.toNat 0 os proc 0 with e | r
  · rw [hm] at hmain
    rcases hs : specPayoffSum os proc draws 0 n.toNat with e2 | w
    · rw [hs] at hmain
      cases hmain
      rfl
    · rw [hs] at hmain
      cases hmain
  · rw [hm] at hmain
    rcases hs : specPayoffSum os proc draws 0 n.toNat with e2 | w
    · rw [hs] at hmain
      cases hmain
    · rw [hs] at hmain
      have hr1 : r.1 = 0 + w := Except.ok.inj hmain
      obtain ⟨g1, g2, g3⟩ := mcLoop_ok draws os.times n.toNat 0 os proc 0 r hm
      have hcast : ((n.toNat : ℕ) : ℚ) = ((n : ℤ) : ℚ) := by
        rw [← Int.cast_natCast]
        exact congrArg Int.cast (Int.toNat_of_nonneg (by omega))
      show (if n = 0 then Except.error PyErr.zeroDivisionError else
          Except.ok (r.1 / (n : ℚ) * yc r.2.1.expiry, r.2.1, r.2.2)).map
            (fun r => r.1)
        = Except.ok (w / (n.toNat : ℚ) * yc os.expiry)
      rw [if_neg hne, hr1, zero_add, g2, hcast]
      rfl

/-- Witness for C2 on explicit inputs with two paths. -/
theorem C2_witness :
    (1 : ℤ) ≤ 2 ∧
    (mc_path_dependent w2os w2proc (fun _ => 1) 2 fun k => (k : ℚ)).map
        (fun r => r.1)
      = specPrice w2os w2proc (fun _ => 1) (2 : ℤ).toNat fun k => (k : ℚ) :=
  ⟨by decide,
   C2_pricer_refinement w2os w2proc (fun _ => 1) 2 (fun k => (k : ℚ))
     (by decide)⟩

lemma mcLoop_last (draws : ℕ → ℚ) (os₀ : OptionState) (proc₀ : Process) :
    ∀ (m : ℕ) (s : ℚ) (os : OptionState) (proc : Process) (k : ℕ)
      (r : ℚ × OptionState × Process),
      os.reset = os₀.reset → proc.reset = proc₀.reset →
      mcLoop draws os₀.times (m + 1) s os proc k = .ok r →
      ∃ w, do_one_path draws os₀.times proc₀.reset os₀.reset
          (k + m * os₀.times.length)
        = .ok (w, r.2.1, r.2.2, k + (m + 1) * os₀.times.length) := by
  intro m
  induction m with
  | zero =>
    intro s os proc k r h1 h2 h
    simp only [mcLoop] at h
    rw [h1, h2] at h
    rcases hp : do_one_path draws os₀.times proc₀.reset os₀.reset k
      with e | r1
    · rw [hp] at h
      cases h
    · rw [hp] at h
      simp only [Except.bind, mcLoop] at h
      cases h
      obtain ⟨d1, d2, d3, d4, d5, d6⟩ := do_one_path_ok draws os₀.times
        proc₀.reset os₀.reset k r1.1 r1.2.1 r1.2.2.1 r1.2.2.2 (by rw [hp])
      refine ⟨r1.1, ?_⟩
      rw [Nat.zero_mul, Nat.add_zero, Nat.one_mul, hp, ← d5]
  | succ m ih =>
    intro s os proc k r h1 h2 h
    simp only [mcLoop] at h
    rw [h1, h2] at h
    rcases hp : do_one_path draws os₀.times proc₀.reset os₀.reset k
      with e | r1
    · rw [hp] at h
      cases h
    · rw [hp] at h
      simp only [Except.bind] at h
      obtain ⟨d1, d2, d3, d4, d5, d6⟩ := do_one_path_ok draws os₀.times
        proc₀.reset os₀.reset k r1.1 r1.2.1 r1.2.2.1 r1.2.2.2 (by rw [hp])
      obtain ⟨w, hw⟩ := ih (s + r1.1) r1.2.1 r1.2.2.1 r1.2.2.2 r
        (d1.trans (rfl : os₀.reset.reset = os₀.reset))
        (d4.trans (rfl : proc₀.reset.reset = proc₀.reset)) h
      rw [d5] at hw
      refine ⟨w, ?_⟩
      have e1 : k + os₀.times.length + m * os₀.times.length
          = k + (m + 1) * os₀.times.length := by ring
      have e2 : k + os₀.times.length + (m + 1) * os₀.times.length
          = k + (m + 1 + 1) * os₀.times.length := by ring
      rw [e1, e2] at hw
      exact hw

/-- C10: residual argument state.  A successful
`mc_path_dependent(optionState, process, ..., n)` call with `n ≥ 1` leaves
the returned (mutated) `optionState` and `process` holding exactly the
final state of the last simulated path: the returned option state has
expired, and the pair equals the outcome of running one path from the
freshly reset objects on the last path's draws (indices
`(n-1)*L .. n*L-1`) — the driver resets only at the start of each path,
never after the final one. -/
theorem C10_residual_state (os : OptionState) (proc : Process) (yc : ℚ → ℚ)
    (n : ℤ) (draws : ℕ → ℚ) (v : ℚ) (os' : OptionState) (proc' : Process)
    (h1 : 1 ≤ n)
    (hok : mc_path_dependent os proc yc n draws = .ok (v, os', proc')) :
    os'.has_expired = true ∧
    ∃ w, do_one_path draws os.times proc.reset os.reset
        ((n.toNat - 1) * os.times.length)
      = .ok (w, os', proc', n.toNat * os.times.length) := by
  obtain ⟨m, hm⟩ : ∃ m, n.toNat = m + 1 := ⟨n.toNat - 1, by omega⟩
  have hne : ¬n = 0 := by omega
  simp only [mc_path_dependent] at hok
  rcases hloop : mcLoop draws os.times n.toNat 0 os proc 0 with e | r
  · rw [hloop] at hok
    cases hok
  · rw [hloop] at hok
    simp only [Except.bind, if_neg hne] at hok
    cases hok
    rw [hm] at hloop
    obtain ⟨w, hw⟩ := mcLoop_last draws os proc m 0 os proc 0 r rfl rfl hloop
    simp only [Nat.zero_add] at hw
    constructor
    · obtain ⟨_, _, _, _, _, d6⟩ := do_one_path_ok draws os.times proc.reset
        os.reset (m * os.times.length) w r.2.1 r.2.2
        ((m + 1) * os.times.length) (by rw [hw])
      exact calculate_payoff_ok_expired _ w d6
    · refine ⟨w, ?_⟩
      rw [show n.toNat - 1 = m from by omega, hm]
      exact hw

/-- Witness for C10 on an explicit one-path pricing run. -/
theorem C10_witness :
    ((1 : ℤ) ≤ 1 ∧
     mc_path_dependent w10os w10proc (fun _ => 1) 1 (fun _ => 5)
       = .ok ((0 + 5 : ℚ) / ((1 : ℤ) : ℚ) * 1, w10osF, w10procF)) ∧
    (w10osF.has_expired = true ∧
     ∃ w, do_one_path (fun _ => 5) w10os.times w10proc.reset w10os.reset
         (((1 : ℤ).toNat - 1) * w10os.times.length)
       = .ok (w, w10osF, w10procF, (1 : ℤ).toNat * w10os.times.length)) :=
  ⟨⟨by decide, rfl⟩,
   C10_residual_state w10os w10proc (fun _ => 1) 1 (fun _ => 5)
     ((0 + 5 : ℚ) / ((1 : ℤ) : ℚ) * 1) w10osF w10procF (by decide) rfl⟩
